import Mathlib

/-!
Verification development for the governance engine of the
enterprise-llm-integration repository: the PII detector / redactor, the
cost guard, the confidence gate and the audit logger
(packages/core/src/governance/piiDetector.ts, costGuard.ts,
confidenceGate.ts and src/governance/costGuard.ts).

Text is modelled as `List Char`.  Each regular expression of the source is
embedded as an explicit matcher `List Char → Nat → Option Nat` returning
the length of the match the JavaScript engine produces at a position
(greedy matching with backtracking, word-boundary assertions included),
and the global `exec` scan loop is embedded as `execScan`.  JavaScript
numbers are modelled as rationals.  Wall-clock readings, random id
suffixes and the external SHA-256 primitive are passed as explicit
parameters where a component stores them in its output.
-/

namespace Gov

/-- JavaScript word-character class `[A-Za-z0-9_]`, used by `\b`. -/
def isWordChar (c : Char) : Bool := c.isAlpha || c.isDigit || c = '_'

/-- JavaScript whitespace class `\s` (ASCII part). -/
def isSpaceJS (c : Char) : Bool :=
  c = ' ' || c = '\t' || c = '\n' || c = '\r' || c = '\x0b' || c = '\x0c'

/-- Character at position `i`, tested against a predicate; out of range is false. -/
def chIs (t : List Char) (i : Nat) (p : Char → Bool) : Bool :=
  match t.get? i with
  | some c => p c
  | none => false

/-- Whether the character at position `i` is a word character (out of range: no). -/
def wordAt (t : List Char) (i : Nat) : Bool := chIs t i isWordChar

/-- The `\b` assertion of JavaScript regexes at position `i`: exactly one of
the characters around the position is a word character. -/
def boundaryAt (t : List Char) (i : Nat) : Bool :=
  if i = 0 then wordAt t 0 else wordAt t i != wordAt t (i - 1)

/-- `n` consecutive digits starting at position `i`. -/
def allDigits (t : List Char) (i : Nat) : Nat → Bool
  | 0 => true
  | n + 1 => chIs t i Char.isDigit && allDigits t (i + 1) n

/-- Length of the maximal run of characters satisfying `cls` from position `i`
(fuelled; the fuel is always at least the remaining length). -/
def runLenAux (t : List Char) (cls : Char → Bool) : Nat → Nat → Nat
  | _, 0 => 0
  | i, fuel + 1 => if chIs t i cls then 1 + runLenAux t cls (i + 1) fuel else 0

def runLen (t : List Char) (cls : Char → Bool) (i : Nat) : Nat :=
  runLenAux t cls i (t.length + 1)

/-- The global `regex.exec` loop: starting from position `p`, find the next
position where the matcher succeeds, record the match and resume right after
it (all source patterns match at least one character, so `max len 1 = len`). -/
def execScanGo (m : List Char → Nat → Option Nat) (t : List Char) :
    Nat → Nat → List (Nat × Nat)
  | _, 0 => []
  | p, fuel + 1 =>
    if t.length ≤ p then []
    else
      match m t p with
      | some len => (p, len) :: execScanGo m t (p + max len 1) fuel
      | none => execScanGo m t (p + 1) fuel

def execScan (m : List Char → Nat → Option Nat) (t : List Char) : List (Nat × Nat) :=
  execScanGo m t 0 (t.length + 1)

/-! ## luhnCheck (piiDetector.ts lines 57-68) -/

/-- Running sum of the Luhn algorithm over the digits in right-to-left order;
the flag says whether the current digit is doubled. -/
def luhnSum : List Char → Bool → Nat
  | [], _ => 0
  | c :: rest, dbl =>
    let d := c.toNat - '0'.toNat
    let d' := if dbl then (if d * 2 > 9 then d * 2 - 9 else d * 2) else d
    d' + luhnSum rest (!dbl)

/-- `luhnCheck`: strip non-digits, require 13-19 digits, then the checksum. -/
def luhnCheck (cardNumber : List Char) : Bool :=
  let digits := cardNumber.filter Char.isDigit
  if digits.length < 13 || 19 < digits.length then false
  else luhnSum digits.reverse false % 10 = 0

/-! ## The five PII_PATTERNS regexes as explicit matchers -/

/-- Matcher for `/\b(\d{3})-(\d{2})-(\d{4})\b/g` (pattern `ssn_dashed`). -/
def ssnMatchAt (t : List Char) (p : Nat) : Option Nat :=
  if boundaryAt t p && allDigits t p 3 && chIs t (p + 3) (· = '-') &&
      allDigits t (p + 4) 2 && chIs t (p + 6) (· = '-') &&
      allDigits t (p + 7) 4 && boundaryAt t (p + 11)
  then some 11 else none

/-- Digit characters read as a number (for `parseInt` on a digit string). -/
def digitsToNat (l : List Char) : Nat :=
  l.foldl (fun a c => a * 10 + (c.toNat - '0'.toNat)) 0

/-- `validate` of `ssn_dashed`: area not 000/666 and below 900, group not 00,
serial not 0000 (the dashes are stripped first). -/
def ssnValidate (v : List Char) : Bool :=
  let clean := v.filter (fun c => !(c = '-'))
  let area := clean.take 3
  let group := (clean.drop 3).take 2
  let serial := clean.drop 5
  !(area == ['0', '0', '0']) && !(group == ['0', '0']) &&
    !(serial == ['0', '0', '0', '0']) && !(area == ['6', '6', '6']) &&
    digitsToNat area < 900

/-- `mask` of `ssn_dashed`: `XXX-XX-` followed by the last four characters. -/
def ssnMask (v : List Char) : List Char :=
  "XXX-XX-".data ++ v.drop (v.length - 4)

/-- Separator class `[-\s]` of the credit-card pattern. -/
def isCardSep (c : Char) : Bool := c = '-' || isSpaceJS c

/-- Matcher for `/\b(\d{4}[-\s]?\d{4}[-\s]?\d{4}[-\s]?\d{4})\b/g`
(pattern `credit_card_spaced`).  Each optional separator is consumed exactly
when present: skipping a present separator would place a digit group on a
non-digit, so greedy matching with backtracking reduces to this. -/
def cardMatchAt (t : List Char) (p : Nat) : Option Nat :=
  if !(boundaryAt t p && allDigits t p 4) then none else
  let q1 := if chIs t (p + 4) isCardSep then p + 5 else p + 4
  if !allDigits t q1 4 then none else
  let q2 := if chIs t (q1 + 4) isCardSep then q1 + 5 else q1 + 4
  if !allDigits t q2 4 then none else
  let q3 := if chIs t (q2 + 4) isCardSep then q2 + 5 else q2 + 4
  if allDigits t q3 4 && boundaryAt t (q3 + 4) then some (q3 + 4 - p) else none

/-- `validate` of `credit_card_spaced`: Luhn on the digits
(`luhnCheck` strips the separators itself). -/
def cardValidate (v : List Char) : Bool := luhnCheck v

/-- `mask` of `credit_card_spaced`: `****-****-****-` plus last four digits. -/
def cardMask (v : List Char) : List Char :=
  let digits := v.filter (fun c => !isCardSep c)
  "****-****-****-".data ++ digits.drop (digits.length - 4)

/-- Local-part class `[A-Za-z0-9._%+-]` of the email pattern. -/
def isLocalChar (c : Char) : Bool :=
  c.isAlphanum || c = '.' || c = '_' || c = '%' || c = '+' || c = '-'

/-- Domain class `[A-Za-z0-9.-]` of the email pattern. -/
def isDomainChar (c : Char) : Bool := c.isAlphanum || c = '.' || c = '-'

/-- Top-level-domain class `[A-Z|a-z]` of the email pattern (the source class
literally contains the pipe character). -/
def isTldChar (c : Char) : Bool := c.isAlpha || c = '|'

/-- Matcher for `/\b[A-Za-z0-9._%+-]+@[A-Za-z0-9.-]+\.[A-Z|a-z]{2,}\b/g`.
The local part is the maximal run (no character of the class can precede the
`@`, so backtracking cannot shorten it); the greedy domain part backtracks
over the dot positions from right to left, and for a fixed dot the greedy
`{2,}` run backtracks from its maximal length down to 2 until the trailing
`\b` holds. -/
def emailMatchAt (t : List Char) (p : Nat) : Option Nat :=
  if !boundaryAt t p then none else
  let lk := runLen t isLocalChar p
  if lk = 0 then none else
  if !chIs t (p + lk) (· = '@') then none else
  let a := p + lk + 1
  let m := runLen t isDomainChar a
  if m = 0 then none else
  let dots := (((List.range m).map (fun j => a + j)).filter
    (fun q => a + 1 ≤ q && chIs t q (· = '.'))).reverse
  dots.findSome? (fun q =>
    let r := runLen t isTldChar (q + 1)
    ((List.range (r - 1)).map (fun k => r - k)).findSome? (fun len =>
      if 2 ≤ len && boundaryAt t (q + 1 + len) then some (q + 1 + len - p) else none))

/-- `mask` of the email pattern: first character of the part before the `@`,
then `***@` and the part after it. -/
def emailMask (v : List Char) : List Char :=
  let localPart := v.takeWhile (fun c => !(c = '@'))
  let domain := (v.dropWhile (fun c => !(c = '@'))).drop 1
  localPart.take 1 ++ "***@".data ++ domain

/-- Separator class `[-.\s]` of the phone pattern. -/
def isPhoneSep (c : Char) : Bool := c = '-' || c = '.' || isSpaceJS c

/-- Matcher for `/\b(?:\+1[-.\s]?)?\(?\d{3}\)?[-.\s]?\d{3}[-.\s]?\d{4}\b/g`
(pattern `phone_us`).  Every optional element is tried greedily first and the
alternatives are explored in depth-first order, exactly as the backtracking
engine does. -/
def phoneMatchAt (t : List Char) (p : Nat) : Option Nat :=
  if !boundaryAt t p then none else
  let plusCands : List Nat :=
    if chIs t p (· = '+') && chIs t (p + 1) (· = '1') then
      (if chIs t (p + 2) isPhoneSep then [p + 3, p + 2, p] else [p + 2, p])
    else [p]
  plusCands.findSome? (fun q =>
    let parenCands := if chIs t q (· = '(') then [q + 1, q] else [q]
    parenCands.findSome? (fun r =>
      if !allDigits t r 3 then none else
      let r3 := r + 3
      let closeCands := if chIs t r3 (· = ')') then [r3 + 1, r3] else [r3]
      closeCands.findSome? (fun s =>
        let sepCands := if chIs t s isPhoneSep then [s + 1, s] else [s]
        sepCands.findSome? (fun u =>
          if !allDigits t u 3 then none else
          let u3 := u + 3
          let sep2 := if chIs t u3 isPhoneSep then [u3 + 1, u3] else [u3]
          sep2.findSome? (fun w =>
            if allDigits t w 4 && boundaryAt t (w + 4)
            then some (w + 4 - p) else none)))))

/-- `mask` of `phone_us`: fixed prefix plus the last four digits. -/
def phoneMask (v : List Char) : List Char :=
  let digits := v.filter Char.isDigit
  "(***) ***-".data ++ digits.drop (digits.length - 4)

/-- End positions an IPv4 octet `(?:25[0-5]|2[0-4][0-9]|[01]?[0-9][0-9]?)`
can reach from position `p`, in the order the backtracking engine tries
them. -/
def octetEnds (t : List Char) (p : Nat) : List Nat :=
  (if chIs t p (· = '2') && chIs t (p + 1) (· = '5') &&
      chIs t (p + 2) (fun c => '0' ≤ c && c ≤ '5') then [p + 3] else []) ++
  (if chIs t p (· = '2') && chIs t (p + 1) (fun c => '0' ≤ c && c ≤ '4') &&
      chIs t (p + 2) Char.isDigit then [p + 3] else []) ++
  (if chIs t p (fun c => c = '0' || c = '1') && chIs t (p + 1) Char.isDigit then
    (if chIs t (p + 2) Char.isDigit then [p + 3, p + 2] else [p + 2]) else []) ++
  (if chIs t p Char.isDigit then
    (if chIs t (p + 1) Char.isDigit then [p + 2, p + 1] else [p + 1]) else [])

/-- Matcher for the `ipv4` pattern: four octets separated by dots, between
word boundaries, with full backtracking across the octet alternatives. -/
def ipv4MatchAt (t : List Char) (p : Nat) : Option Nat :=
  if !boundaryAt t p then none else
  (octetEnds t p).findSome? (fun e1 =>
    if !chIs t e1 (· = '.') then none else
    (octetEnds t (e1 + 1)).findSome? (fun e2 =>
      if !chIs t e2 (· = '.') then none else
      (octetEnds t (e2 + 1)).findSome? (fun e3 =>
        if !chIs t e3 (· = '.') then none else
        (octetEnds t (e3 + 1)).findSome? (fun e4 =>
          if boundaryAt t e4 then some (e4 - p) else none))))

/-! ## PIIDetector data model and pipeline (piiDetector.ts lines 7-192) -/

/-- The `PIIType` enumeration. -/
inductive PIIType where
  | ssn | credit_card | email | phone | ip_address | date_of_birth | mrn | custom
  deriving DecidableEq, Repr, BEq

/-- Processing mode of the detector. -/
inductive PIIMode where
  | detect | redact | mask
  deriving DecidableEq, Repr, BEq

/-- `DEFAULT_REDACTION_TOKENS`. -/
def defaultRedactionToken : PIIType → List Char
  | .ssn => "[SSN]".data
  | .credit_card => "[CREDIT_CARD]".data
  | .email => "[EMAIL]".data
  | .phone => "[PHONE]".data
  | .ip_address => "[IP_ADDRESS]".data
  | .date_of_birth => "[DOB]".data
  | .mrn => "[MRN]".data
  | .custom => "[REDACTED]".data

/-- A detection rule: the embedded regex matcher together with the metadata
of the source `PIIPattern` interface. -/
structure PIIPattern where
  name : String
  type : PIIType
  matchAt : List Char → Nat → Option Nat
  confidence : ℚ
  validate : Option (List Char → Bool) := none
  mask : Option (List Char → List Char) := none

/-- The `PII_PATTERNS` table, in source order. -/
def PII_PATTERNS : List PIIPattern :=
  [ { name := "ssn_dashed", type := .ssn, matchAt := ssnMatchAt,
      confidence := 0.95, validate := some ssnValidate, mask := some ssnMask },
    { name := "credit_card_spaced", type := .credit_card, matchAt := cardMatchAt,
      confidence := 0.95, validate := some cardValidate, mask := some cardMask },
    { name := "email", type := .email, matchAt := emailMatchAt,
      confidence := 0.98, mask := some emailMask },
    { name := "phone_us", type := .phone, matchAt := phoneMatchAt,
      confidence := 0.90, mask := some phoneMask },
    { name := "ipv4", type := .ip_address, matchAt := ipv4MatchAt,
      confidence := 0.95 } ]

/-- `PIIDetectorConfig` with the schema defaults. -/
structure PIIDetectorConfig where
  mode : PIIMode := .detect
  enabledTypes : Option (List PIIType) := none
  disabledTypes : Option (List PIIType) := none
  redactionTokens : List (PIIType × List Char) := []
  confidenceThreshold : ℚ := 0.8

/-- A `PIIDetection` record. -/
structure PIIDetection where
  type : PIIType
  value : List Char
  redactedValue : List Char
  startIndex : Nat
  endIndex : Nat
  confidence : ℚ
  patternName : String
  deriving DecidableEq, Repr

/-- A `PIIDetectionResult` (the wall-clock `processingTimeMs` field is
omitted: it is an external clock reading, and no claim concerns it). -/
structure PIIDetectionResult where
  text : List Char
  originalText : List Char
  detections : List PIIDetection
  hasPII : Bool
  detectionCount : Nat
  deriving Repr

/-- The pattern list after the `enabledTypes` / `disabledTypes` constructor
filters. -/
def activePatterns (cfg : PIIDetectorConfig) : List PIIPattern :=
  let p1 := match cfg.enabledTypes with
    | some e => PII_PATTERNS.filter (fun p => e.contains p.type)
    | none => PII_PATTERNS
  match cfg.disabledTypes with
  | some d => p1.filter (fun p => !d.contains p.type)
  | none => p1

/-- The redaction token for a type: the configured override if present,
else the default (the `{...DEFAULT_REDACTION_TOKENS, ...config.redactionTokens}`
merge). -/
def tokenFor (cfg : PIIDetectorConfig) (ty : PIIType) : List Char :=
  match cfg.redactionTokens.find? (fun kv => kv.1 == ty) with
  | some kv => kv.2
  | none => defaultRedactionToken ty

/-- The detection-collection loop of `process`: for every active pattern, every
`exec` match of its regex, dropped when `validate` fails or the rule confidence
is below the threshold, with `redactedValue` chosen by mode. -/
def rawDetections (cfg : PIIDetectorConfig) (t : List Char) : List PIIDetection :=
  (activePatterns cfg).flatMap (fun pat =>
    (execScan pat.matchAt t).filterMap (fun sp =>
      let value := (t.drop sp.1).take sp.2
      let okValidate := match pat.validate with
        | some v => v value
        | none => true
      if !okValidate then none
      else if pat.confidence < cfg.confidenceThreshold then none
      else
        let redacted :=
          match cfg.mode, pat.mask with
          | .mask, some mk => mk value
          | .mask, none => tokenFor cfg pat.type
          | .redact, _ => tokenFor cfg pat.type
          | .detect, _ => value
        some { type := pat.type, value := value, redactedValue := redacted,
               startIndex := sp.1, endIndex := sp.1 + sp.2,
               confidence := pat.confidence, patternName := pat.name }))

/-- Stable insertion into a sorted list: `keep y x` says `y` stays in front of
the newly inserted `x` (ties keep the original order, as the stable
`Array.prototype.sort` does). -/
def sInsert (keep : α → α → Bool) (x : α) : List α → List α
  | [] => [x]
  | y :: ys => if keep y x then y :: sInsert keep x ys else x :: y :: ys

/-- Stable insertion sort, inserting the elements left to right. -/
def sSort (keep : α → α → Bool) (l : List α) : List α :=
  l.foldl (fun acc x => sInsert keep x acc) []

/-- The descending-by-start sort `(a, b) => b.startIndex - a.startIndex`. -/
def sortDesc (l : List PIIDetection) : List PIIDetection :=
  sSort (fun y x => x.startIndex ≤ y.startIndex) l

/-- The ascending-by-start sort `(a, b) => a.startIndex - b.startIndex`. -/
def sortAsc (l : List PIIDetection) : List PIIDetection :=
  sSort (fun y x => y.startIndex ≤ x.startIndex) l

/-- The overlap test of the filter loop:
`d.startIndex < f.endIndex && d.endIndex > f.startIndex`. -/
def overlapsB (d f : PIIDetection) : Bool :=
  d.startIndex < f.endIndex && f.startIndex < d.endIndex

/-- The overlap-resolution loop: walk the (descending-sorted) detections,
keeping one only when it intersects none of those already kept. -/
def overlapGo : List PIIDetection → List PIIDetection → List PIIDetection
  | acc, [] => acc
  | acc, d :: rest =>
    if acc.any (fun f => overlapsB d f) then overlapGo acc rest
    else overlapGo (acc ++ [d]) rest

def overlapFilter (l : List PIIDetection) : List PIIDetection := overlapGo [] l

/-- One replacement step of the redaction loop (replacements are applied from
the highest start offset to the lowest, the order of `filtered`). -/
def applyReplacement (txt : List Char) (d : PIIDetection) : List Char :=
  txt.take d.startIndex ++ d.redactedValue ++ txt.drop d.endIndex

/-- `PIIDetector.process`. -/
def process (cfg : PIIDetectorConfig) (t : List Char) : PIIDetectionResult :=
  let dets := rawDetections cfg t
  let desc := sortDesc dets
  let filtered := overlapFilter desc
  let processed :=
    if cfg.mode == .detect then t
    else filtered.foldl applyReplacement t
  let finalDets := sortAsc filtered
  { text := processed, originalText := t, detections := finalDets,
    hasPII := decide (0 < finalDets.length), detectionCount := finalDets.length }

/-- Convenience: `process` on a string with the given mode and otherwise
default configuration. -/
def processStr (mode : PIIMode) (s : String) : PIIDetectionResult :=
  process { mode := mode } s.data

/-! ## CostGuard (packages/core/src/governance/costGuard.ts) -/

/-- A row of the pricing table: USD per 1000 tokens for input and output. -/
structure Pricing where
  inputPer1kTokens : ℚ
  outputPer1kTokens : ℚ
  deriving DecidableEq, Repr

/-- `DEFAULT_PRICING_TABLE` of the `CostGuard` class. -/
def DEFAULT_PRICING_TABLE : String → Option Pricing := fun m =>
  if m = "gpt-4o" then some ⟨0.005, 0.015⟩
  else if m = "gpt-4o-mini" then some ⟨0.00015, 0.0006⟩
  else if m = "gpt-4-turbo" then some ⟨0.01, 0.03⟩
  else if m = "claude-3-opus" then some ⟨0.015, 0.075⟩
  else if m = "claude-3-sonnet" then some ⟨0.003, 0.015⟩
  else none

/-- `CostGuard.estimateCost`: the pricing row of the model, falling back to
the `gpt-4o-mini` row when the model is not in the table. -/
def estimateCost (model : String) (inputTokens outputTokens : ℚ) : ℚ :=
  let pricing := match DEFAULT_PRICING_TABLE model with
    | some p => p
    | none => ⟨0.00015, 0.0006⟩
  inputTokens / 1000 * pricing.inputPer1kTokens +
    outputTokens / 1000 * pricing.outputPer1kTokens

/-- `MODEL_PRICING` of the standalone module src/governance/costGuard.ts. -/
def MODEL_PRICING : String → Option Pricing := fun m =>
  if m = "gpt-4o" then some ⟨0.0025, 0.01⟩
  else if m = "gpt-4o-mini" then some ⟨0.00015, 0.0006⟩
  else if m = "gpt-4-turbo" then some ⟨0.01, 0.03⟩
  else if m = "gpt-3.5-turbo" then some ⟨0.0005, 0.0015⟩
  else if m = "claude-3-opus" then some ⟨0.015, 0.075⟩
  else if m = "claude-3-sonnet" then some ⟨0.003, 0.015⟩
  else if m = "claude-3-haiku" then some ⟨0.00025, 0.00125⟩
  else none

/-- The standalone `estimateCost` (src/governance/costGuard.ts lines 79-93):
unknown models fall back to the literal `{ input: 0.01, output: 0.03 }`. -/
def estimateCostV0 (model : String) (inputTokens outputTokens : ℚ) : ℚ :=
  let pricing := (MODEL_PRICING model).getD ⟨0.01, 0.03⟩
  inputTokens / 1000 * pricing.inputPer1kTokens +
    outputTokens / 1000 * pricing.outputPer1kTokens

/-- `CostGuardConfig` with its schema defaults. -/
structure CostGuardConfig where
  maxCostPerRequest : ℚ := 0.25
  maxCostPerSession : Option ℚ := none
  maxCostPerDay : Option ℚ := none
  strictMode : Bool := true
  deriving DecidableEq, Repr

/-- A `UsageRecord`; the timestamp is epoch milliseconds. -/
structure UsageRecord where
  userId : String
  sessionId : Option String := none
  cost : ℚ
  timestamp : ℚ
  requestId : Option String := none
  deriving DecidableEq, Repr

/-- `BudgetCheckInput`. -/
structure BudgetCheckInput where
  estimatedCost : ℚ
  userId : Option String := none
  sessionId : Option String := none
  requestId : Option String := none
  deriving DecidableEq, Repr

/-- Which ceiling produced a denial.  It stands for the formatted `reason` /
`message` strings of the source, whose numeric rendering (`toFixed`) is
presentation only. -/
inductive DenialReason where
  | perRequest | perSession | perDay
  deriving DecidableEq, Repr

/-- A budget warning; it stands for the formatted session warning string and
carries the numbers interpolated into it. -/
inductive BudgetWarning where
  | sessionApproaching (projected ceiling : ℚ)
  deriving DecidableEq, Repr

structure RemainingBudget where
  request : ℚ
  session : Option ℚ := none
  daily : Option ℚ := none
  deriving DecidableEq, Repr

/-- `BudgetCheckResult`. -/
structure BudgetCheckResult where
  allowed : Bool
  reason : Option DenialReason := none
  estimatedCost : ℚ
  remainingBudget : RemainingBudget
  warnings : List BudgetWarning
  deriving DecidableEq, Repr

structure ErrorDetails where
  estimatedCost : ℚ
  limit : ℚ
  deriving DecidableEq, Repr

/-- `CostGuardError` as thrown by `checkBudget` in strict mode: the message is
represented by the denial reason, the `code` is always `BUDGET_EXCEEDED`, and
`details` is present only where the source passes a details object. -/
structure CostGuardError where
  reason : DenialReason
  code : String := "BUDGET_EXCEEDED"
  details : Option ErrorDetails := none
  deriving DecidableEq, Repr

/-- `getSessionUsage`: the summed cost of the records of a session. -/
def getSessionUsage (records : List UsageRecord) (sessionId : String) : ℚ :=
  (records.filter (fun r => r.sessionId == some sessionId)).foldl
    (fun sum r => sum + r.cost) 0

/-- `getUserUsage`: the summed cost of the records of a user within the
trailing window. -/
def getUserUsage (records : List UsageRecord) (userId : String)
    (windowMs nowMs : ℚ) : ℚ :=
  (records.filter (fun r => r.userId == userId && nowMs - windowMs ≤ r.timestamp)).foldl
    (fun sum r => sum + r.cost) 0

/-- A present, non-empty (JavaScript-truthy) optional string. -/
def optTruthyStr : Option String → Option String
  | some s => if s.isEmpty then none else some s
  | none => none

/-- The per-session stage of `checkBudget` (costGuard.ts lines 116-132):
either the denial outcome (`Sum.inr`, a throw in strict mode) or the updated
remaining budget and the warnings accumulated so far (`Sum.inl`). -/
def sessionStage (cfg : CostGuardConfig) (records : List UsageRecord)
    (inp : BudgetCheckInput) (base : RemainingBudget) :
    (RemainingBudget × List BudgetWarning) ⊕ Except CostGuardError BudgetCheckResult :=
  match cfg.maxCostPerSession, optTruthyStr inp.sessionId with
  | some ceiling, some sid =>
    let projected := getSessionUsage records sid + inp.estimatedCost
    let rem := { base with session := some (ceiling - projected) }
    if ceiling < projected then
      .inr (if cfg.strictMode then .error { reason := .perSession }
            else .ok { allowed := false, reason := some .perSession,
                       estimatedCost := inp.estimatedCost,
                       remainingBudget := rem, warnings := [] })
    else if ceiling * 0.8 < projected then
      .inl (rem, [.sessionApproaching projected ceiling])
    else .inl (rem, [])
  | _, _ => .inl (base, [])

/-- The per-day stage of `checkBudget` (costGuard.ts lines 135-150). -/
def dayStage (cfg : CostGuardConfig) (records : List UsageRecord) (nowMs : ℚ)
    (inp : BudgetCheckInput) (rem : RemainingBudget)
    (warnings : List BudgetWarning) :
    Except CostGuardError BudgetCheckResult :=
  match cfg.maxCostPerDay, optTruthyStr inp.userId with
  | some ceiling, some uid =>
    let projected := getUserUsage records uid (24 * 60 * 60 * 1000) nowMs +
      inp.estimatedCost
    let rem2 := { rem with daily := some (ceiling - projected) }
    if ceiling < projected then
      if cfg.strictMode then .error { reason := .perDay }
      else .ok { allowed := false, reason := some .perDay,
                 estimatedCost := inp.estimatedCost,
                 remainingBudget := rem2, warnings := warnings }
    else .ok { allowed := true, estimatedCost := inp.estimatedCost,
               remainingBudget := rem2, warnings := warnings }
  | _, _ =>
    .ok { allowed := true, estimatedCost := inp.estimatedCost,
          remainingBudget := rem, warnings := warnings }

/-- `CostGuard.checkBudget`, with the usage ledger and the clock passed
explicitly; a strict-mode `throw` is the `Except.error` case.  The
sequential per-request, per-session and per-day blocks of the source are
the per-request check below followed by `sessionStage` and `dayStage`. -/
def checkBudget (cfg : CostGuardConfig) (records : List UsageRecord)
    (nowMs : ℚ) (input : BudgetCheckInput) :
    Except CostGuardError BudgetCheckResult :=
  let base : RemainingBudget := { request := cfg.maxCostPerRequest - input.estimatedCost }
  if cfg.maxCostPerRequest < input.estimatedCost then
    if cfg.strictMode then
      .error { reason := .perRequest,
               details := some { estimatedCost := input.estimatedCost,
                                 limit := cfg.maxCostPerRequest } }
    else
      .ok { allowed := false, reason := some .perRequest,
            estimatedCost := input.estimatedCost, remainingBudget := base,
            warnings := [] }
  else
    match sessionStage cfg records input base with
    | .inr out => out
    | .inl (rem, warnings) => dayStage cfg records nowMs input rem warnings

/-! ## ConfidenceGate (confidenceGate.ts) -/

/-- `ConfidenceGateConfig` with its schema defaults. -/
structure ConfidenceGateConfig where
  minConfidence : ℚ := 0.7
  maxUncertainty : ℚ := 0.3
  requireCitations : Bool := false
  minCitations : Nat := 0
  escalateOnLowConfidence : Bool := true
  highConfidenceCategories : List String := ["medical", "legal", "financial"]
  deriving DecidableEq, Repr

structure EvalMetadata where
  citations : Option (List String) := none
  sources : Option (List String) := none
  category : Option String := none
  deriving DecidableEq, Repr

structure EvaluationInput where
  content : List Char
  model : Option String := none
  modelConfidence : Option ℚ := none
  metadata : Option EvalMetadata := none
  deriving DecidableEq, Repr

structure UncertaintyMarker where
  marker : List Char
  position : Nat
  weight : ℚ
  context : List Char
  deriving DecidableEq, Repr

/-- Case-insensitive literal comparison at a position (the `i` flag). -/
def litAt (t : List Char) (i : Nat) : List Char → Bool
  | [] => true
  | c :: rest => chIs t i (fun d => d.toLower = c.toLower) && litAt t (i + 1) rest

/-- Matcher for a `\b…\b`-delimited case-insensitive literal phrase. -/
def phraseMatchAt (phrase : List Char) (t : List Char) (p : Nat) : Option Nat :=
  if boundaryAt t p && litAt t p phrase && boundaryAt t (p + phrase.length)
  then some phrase.length else none

/-- Matcher for a phrase followed by a group of alternatives and `\b`, the
alternatives tried in source order. -/
def altPhraseMatchAt (pre : List Char) (alts : List (List Char))
    (t : List Char) (p : Nat) : Option Nat :=
  if !(boundaryAt t p && litAt t p pre) then none else
  alts.findSome? (fun alt =>
    if litAt t (p + pre.length) alt &&
        boundaryAt t (p + pre.length + alt.length)
    then some (pre.length + alt.length) else none)

/-- `UNCERTAINTY_PATTERNS`: weight and matcher, in source order. -/
def UNCERTAINTY_PATTERNS : List (ℚ × (List Char → Nat → Option Nat)) :=
  [ (0.3, phraseMatchAt "i think".data),
    (0.3, phraseMatchAt "i believe".data),
    (0.6, phraseMatchAt "i\x27m not sure".data),
    (0.4, phraseMatchAt "possibly".data),
    (0.4, phraseMatchAt "perhaps".data),
    (0.4, phraseMatchAt "maybe".data),
    (0.3, phraseMatchAt "might".data),
    (0.6, phraseMatchAt "i speculate".data),
    (0.7, altPhraseMatchAt "i don\x27t have ".data ["access".data, "information".data]),
    (0.5, altPhraseMatchAt "you should ".data ["consult".data, "verify".data, "check".data]) ]

/-- `detectUncertainty`: every occurrence of every pattern, with the ±20
character context window. -/
def detectUncertainty (t : List Char) : List UncertaintyMarker :=
  UNCERTAINTY_PATTERNS.flatMap (fun pw =>
    (execScan pw.2 t).map (fun sp =>
      { marker := (t.drop sp.1).take sp.2, position := sp.1, weight := pw.1,
        context := (t.drop (sp.1 - 20)).take
          (min t.length (sp.1 + sp.2 + 20) - (sp.1 - 20)) }))

/-- `calculateUncertaintyScore`. -/
def calculateUncertaintyScore (markers : List UncertaintyMarker)
    (contentLength : Nat) : ℚ :=
  if markers.length = 0 then 0
  else
    let totalWeight := markers.foldl (fun sum m => sum + m.weight) 0
    min (totalWeight / max 1 ((contentLength : ℚ) / 500)) 1

/-- Number of maximal whitespace-free segments of `content.split(/\s+/)`,
counting the empty leading / trailing segments the JavaScript `split`
produces when the text starts or ends with whitespace. -/
def splitWsCount (t : List Char) : Nat :=
  match t with
  | [] => 1
  | c :: _ =>
    let segs := ((t.splitOnP isSpaceJS).filter (fun s => !s.isEmpty)).length
    segs + (if isSpaceJS c then 1 else 0) +
      (if isSpaceJS (t.getLastD c) then 1 else 0)

/-- JavaScript `String.prototype.trim` (ASCII whitespace). -/
def trimJS (t : List Char) : List Char :=
  ((t.dropWhile isSpaceJS).reverse.dropWhile isSpaceJS).reverse

/-- `calculateQualityScore`. -/
def calculateQualityScore (t : List Char) : ℚ :=
  let wordCount := splitWsCount t
  let score : ℚ := 0.5 + (if 50 ≤ wordCount then 0.2 else 0) +
    (if t.contains '\n' then 0.1 else 0) +
    (if t.any Char.isDigit then 0.1 else 0) +
    (if (match (trimJS t).getLast? with
         | some c => c = '.' || c = '!' || c = '?'
         | none => false) then 0.1 else 0)
  min score 1

/-- A `reasons[]` element; each constructor stands for one of the formatted
reason strings and carries the numbers interpolated into it. -/
inductive CGReason where
  | highScrutiny (category : String)
  | insufficientCitations (count required : Nat)
  | lowConfidence (score threshold : ℚ)
  | highUncertainty (score threshold : ℚ)
  | markersFound (n : Nat)
  deriving DecidableEq, Repr

structure CitationInfo where
  count : Nat
  required : Nat
  sufficient : Bool
  deriving DecidableEq, Repr

structure CEMetadata where
  evaluatedAt : String
  processingTimeMs : ℚ
  model : Option String := none
  category : Option String := none
  deriving DecidableEq, Repr

structure ConfidenceEvaluation where
  passed : Bool
  confidenceScore : ℚ
  uncertaintyScore : ℚ
  qualityScore : ℚ
  requiresHumanReview : Bool
  reasons : List CGReason
  uncertaintyMarkers : List UncertaintyMarker
  citations : CitationInfo
  metadata : CEMetadata
  deriving DecidableEq, Repr

/-- `ConfidenceGate.evaluate`.  The two wall-clock readings the source stores
in the output metadata (`new Date().toISOString()` and the
`performance.now()` difference) are explicit parameters. -/
def evaluate (cfg : ConfidenceGateConfig) (input : EvaluationInput)
    (evaluatedAt : String) (processingTimeMs : ℚ) : ConfidenceEvaluation :=
  let content := input.content
  let markers := detectUncertainty content
  let uncertaintyScore := calculateUncertaintyScore markers content.length
  let qualityScore := calculateQualityScore content
  let conf0 : ℚ := input.modelConfidence.getD 0.7
  let conf1 := conf0 - uncertaintyScore * 0.3 + (qualityScore - 0.5) * 0.2
  let category := input.metadata.bind (·.category)
  let scrutiny :=
    match category with
    | some c => !c.isEmpty && cfg.highConfidenceCategories.contains c
    | none => false
  let conf2 : ℚ := if scrutiny then conf1 - 0.1 else conf1
  let reasons0 : List CGReason :=
    if scrutiny then [.highScrutiny (category.getD "")] else []
  let confidenceScore := max 0 (min 1 conf2)
  let citations : List String :=
    match input.metadata with
    | none => []
    | some md =>
      match md.citations with
      | some l => l
      | none => md.sources.getD []
  let citationsSufficient := !cfg.requireCitations ||
    cfg.minCitations ≤ citations.length
  let reasons1 := reasons0 ++ (if citationsSufficient then []
    else [.insufficientCitations citations.length cfg.minCitations])
  let failConf := confidenceScore < cfg.minConfidence
  let failUnc := cfg.maxUncertainty < uncertaintyScore
  let passed := !failConf && !failUnc && citationsSufficient
  let reasons2 := reasons1 ++
    (if failConf then [.lowConfidence confidenceScore cfg.minConfidence] else []) ++
    (if failUnc then [.highUncertainty uncertaintyScore cfg.maxUncertainty] else []) ++
    (if 0 < markers.length then [.markersFound markers.length] else [])
  { passed := passed,
    confidenceScore := confidenceScore,
    uncertaintyScore := uncertaintyScore,
    qualityScore := qualityScore,
    requiresHumanReview := !passed && cfg.escalateOnLowConfidence,
    reasons := reasons2,
    uncertaintyMarkers := markers,
    citations := { count := citations.length, required := cfg.minCitations,
                   sufficient := citationsSufficient },
    metadata := { evaluatedAt := evaluatedAt,
                  processingTimeMs := processingTimeMs,
                  model := input.model, category := category } }

/-! ## AuditLogger (piiDetector.ts lines 194-363) -/

/-- `AuditLogLevel`. -/
inductive AuditLogLevel where
  | debug | info | warn | error | critical
  deriving DecidableEq, Repr

/-- `LOG_LEVEL_PRIORITY`. -/
def LOG_LEVEL_PRIORITY : AuditLogLevel → Nat
  | .debug => 0
  | .info => 1
  | .warn => 2
  | .error => 3
  | .critical => 4

/-- `AuditAction` (dots in the source enum rendered as underscores). -/
inductive AuditAction where
  | llm_request | llm_response | llm_error | llm_retry
  | governance_cost_check | governance_cost_exceeded | governance_pii_detected
  | governance_pii_redacted | governance_confidence_filtered
  | auth_token_validated | auth_token_rejected
  | system_startup | system_shutdown | system_config_change | custom
  deriving DecidableEq, Repr

/-- Outcome enumeration (`success | failure | partial`). -/
inductive AuditOutcome where
  | success | failure | partialResult
  deriving DecidableEq, Repr

/-- A JSON-like value, the model of the `Record<string, unknown>` metadata. -/
inductive JsonValue where
  | str (s : String)
  | num (q : ℚ)
  | bool (b : Bool)
  | null
  | arr (items : List JsonValue)
  | obj (fields : List (String × JsonValue))

/-- Output sink selector of the logger configuration. -/
inductive AuditSink where
  | console | callback
  deriving DecidableEq, Repr

/-- `AuditLoggerConfig` with its schema defaults (the `onLog` callback is
represented by recording emissions in the result of `log`). -/
structure AuditLoggerConfig where
  serviceName : String := "enterprise-llm"
  environment : String := "development"
  minLevel : AuditLogLevel := .info
  enableIntegrityHash : Bool := true
  redactFields : List String := ["apiKey", "password", "secret", "token", "authorization"]
  output : AuditSink := .console
  deriving Repr

structure AuditErrorInfo where
  name : String
  message : String
  stack : Option String := none
  deriving DecidableEq, Repr

/-- `AuditLogEntryInput`. -/
structure AuditLogEntryInput where
  action : AuditAction
  level : Option AuditLogLevel := none
  userId : Option String := none
  sessionId : Option String := none
  requestId : Option String := none
  traceId : Option String := none
  message : Option String := none
  metadata : Option (List (String × JsonValue)) := none
  error : Option AuditErrorInfo := none
  durationMs : Option ℚ := none
  outcome : Option AuditOutcome := none

/-- `AuditLogEntry`. -/
structure AuditLogEntry where
  id : String
  timestamp : String
  timestampMs : Nat
  service : String
  environment : String
  level : AuditLogLevel
  action : AuditAction
  userId : Option String := none
  sessionId : Option String := none
  requestId : Option String := none
  traceId : Option String := none
  message : Option String := none
  durationMs : Option ℚ := none
  outcome : Option AuditOutcome := none
  metadata : Option (List (String × JsonValue)) := none
  error : Option AuditErrorInfo := none
  integrityHash : Option String := none
  schemaVersion : String

/-- Digit of a base-36 rendering (`Number.prototype.toString(36)`). -/
def b36Char (n : Nat) : Char :=
  if n < 10 then Char.ofNat ('0'.toNat + n) else Char.ofNat ('a'.toNat + (n - 10))

def toBase36Aux : Nat → Nat → List Char
  | _, 0 => []
  | n, fuel + 1 =>
    if n = 0 then [] else toBase36Aux (n / 36) fuel ++ [b36Char (n % 36)]

/-- `n.toString(36)`. -/
def toBase36 (n : Nat) : String :=
  if n = 0 then "0" else String.mk (toBase36Aux n (n + 1))

/-- `padStart(4, "0")`. -/
def padStart4 (s : String) : String :=
  String.mk (List.replicate (4 - s.length) '0') ++ s

/-- `generateId`: timestamp, random suffix and the incremented counter, each
in base 36. -/
def generateId (nowMs : Nat) (rand : String) (count : Nat) : String :=
  "log_" ++ toBase36 nowMs ++ "_" ++ rand ++ "_" ++ padStart4 (toBase36 count)

/-- Contiguous-sublist test (`String.prototype.includes`). -/
def containsSublist (hay needle : List Char) : Bool :=
  match hay with
  | [] => needle.isEmpty
  | _ :: rest => needle.isPrefixOf hay || containsSublist rest needle

/-- Character list of a string, lower-cased (`String.prototype.toLowerCase`,
ASCII). -/
def toLowerChars (s : String) : List Char := s.data.map Char.toLower

/-- Case-insensitive substring test: `key.toLowerCase().includes(f.toLowerCase())`
for some denylist entry `f`. -/
def matchesDenylist (fields : List String) (key : String) : Bool :=
  fields.any (fun f => containsSublist (toLowerChars key) (toLowerChars f))

/-- `AuditLogger.redact`: a denylisted key becomes `[REDACTED]`; a plain
object value is recursed into; arrays and every other value pass through. -/
def redactObj (fields : List String) : List (String × JsonValue) → List (String × JsonValue)
  | [] => []
  | (k, v) :: rest =>
    (k, if matchesDenylist fields k then .str "[REDACTED]"
        else match v with
          | .obj o => .obj (redactObj fields o)
          | other => other) :: redactObj fields rest

/-- A wall-clock reading (`new Date()`): the ISO rendering and epoch
milliseconds. -/
structure ClockReading where
  isoTimestamp : String
  epochMs : Nat
  deriving Repr

/-- `AuditLogger.log`.  The mutable `logCount` is passed and returned
explicitly, the clock and the random id suffix are parameters, and the
SHA-256 over the canonical JSON of the entry is an abstract `hash` parameter
(external crypto primitive).  The third component lists the entries emitted
to the sink (console or callback).  An input below the minimum level returns
`none` (the empty object of the source) with the count unchanged and nothing
emitted. -/
def AuditLogger.log (cfg : AuditLoggerConfig) (hash : AuditLogEntry → String)
    (clock : ClockReading) (rand : String) (logCount : Nat)
    (input : AuditLogEntryInput) :
    Option AuditLogEntry × Nat × List AuditLogEntry :=
  let level := input.level.getD .info
  if LOG_LEVEL_PRIORITY level < LOG_LEVEL_PRIORITY cfg.minLevel then
    (none, logCount, [])
  else
    let newCount := logCount + 1
    let entry : AuditLogEntry := {
      id := generateId clock.epochMs rand newCount,
      timestamp := clock.isoTimestamp,
      timestampMs := clock.epochMs,
      service := cfg.serviceName,
      environment := cfg.environment,
      schemaVersion := "1.0.0",
      level := level,
      action := input.action,
      userId := optTruthyStr input.userId,
      sessionId := optTruthyStr input.sessionId,
      requestId := optTruthyStr input.requestId,
      traceId := optTruthyStr input.traceId,
      message := optTruthyStr input.message,
      durationMs := input.durationMs,
      outcome := input.outcome,
      metadata := input.metadata.map (redactObj cfg.redactFields),
      error := input.error }
    let entry :=
      if cfg.enableIntegrityHash then { entry with integrityHash := some (hash entry) }
      else entry
    (some entry, newCount, [entry])

/-! ## Helper definitions used by the theorem statements -/

/-- Field lookup in an object (first occurrence of a key). -/
def objLookup (fields : List (String × JsonValue)) (k : String) : Option JsonValue :=
  (fields.find? (fun kv => kv.1 == k)).map (·.2)

/-- Descent along a path of keys through nested objects. -/
def lookupPath : JsonValue → List String → Option JsonValue
  | v, [] => some v
  | .obj fields, k :: rest => (objLookup fields k).bind (fun v => lookupPath v rest)
  | _, _ :: _ => none

/-- The fields of a `ConfidenceEvaluation` other than the two wall-clock
readings stored in its metadata. -/
def stripClock (e : ConfidenceEvaluation) :=
  (e.passed, e.confidenceScore, e.uncertaintyScore, e.qualityScore,
   e.requiresHumanReview, e.reasons, e.uncertaintyMarkers, e.citations,
   e.metadata.model, e.metadata.category)

end Gov

namespace Gov

/-! # Theorems -/

/-- C1: the claim says `estimateCost` uses a conservative default for unknown
models, never the cheapest, so that the cost of an unknown model is at least
that of any known model at the same token counts.  The code does the
opposite: `CostGuard.estimateCost` falls back to the `gpt-4o-mini` row, the
cheapest entry of the table, so at 1000/1000 tokens an unpriced model is
estimated at 0.00075 USD while `claude-3-opus` is estimated at 0.09 USD; the
standalone `estimateCost` falls back to `0.01/0.03` (gpt-4-turbo pricing),
which is also below the `claude-3-opus` cost. -/
theorem C1_unknown_model_uses_cheapest_pricing :
    DEFAULT_PRICING_TABLE "unpriced-model" = none ∧
    estimateCost "unpriced-model" 1000 1000 = estimateCost "gpt-4o-mini" 1000 1000 ∧
    estimateCost "unpriced-model" 1000 1000 < estimateCost "gpt-4o" 1000 1000 ∧
    estimateCost "unpriced-model" 1000 1000 < estimateCost "gpt-4-turbo" 1000 1000 ∧
    estimateCost "unpriced-model" 1000 1000 < estimateCost "claude-3-opus" 1000 1000 ∧
    estimateCost "unpriced-model" 1000 1000 < estimateCost "claude-3-sonnet" 1000 1000 ∧
    estimateCostV0 "unpriced-model" 1000 1000 < estimateCostV0 "claude-3-opus" 1000 1000 := by
  have t0 : DEFAULT_PRICING_TABLE "unpriced-model" = none := rfl
  have t1 : DEFAULT_PRICING_TABLE "gpt-4o-mini" = some ⟨0.00015, 0.0006⟩ := rfl
  have t2 : DEFAULT_PRICING_TABLE "gpt-4o" = some ⟨0.005, 0.015⟩ := rfl
  have t3 : DEFAULT_PRICING_TABLE "gpt-4-turbo" = some ⟨0.01, 0.03⟩ := rfl
  have t4 : DEFAULT_PRICING_TABLE "claude-3-opus" = some ⟨0.015, 0.075⟩ := rfl
  have t5 : DEFAULT_PRICING_TABLE "claude-3-sonnet" = some ⟨0.003, 0.015⟩ := rfl
  have v0 : MODEL_PRICING "unpriced-model" = none := rfl
  have v4 : MODEL_PRICING "claude-3-opus" = some ⟨0.015, 0.075⟩ := rfl
  simp only [estimateCost, estimateCostV0, t0, t1, t2, t3, t4, t5, v0, v4,
    Option.getD_none, Option.getD_some]
  norm_num

/-- C6 (counterexample): `ConfidenceGate.evaluate` is not identical in every
field across two calls with identical input and configuration, because the
output metadata stores the wall clock (`evaluatedAt`, `processingTimeMs`):
two calls at different clock readings differ. -/
theorem C6_evaluate_not_identical_in_every_field :
    ¬ (evaluate {} { content := "x".data } "2024-01-01T00:00:00.000Z" 0 =
       evaluate {} { content := "x".data } "2024-01-01T00:00:01.000Z" 0) := by
  intro h
  have h2 : ("2024-01-01T00:00:00.000Z" : String) = "2024-01-01T00:00:01.000Z" :=
    congrArg (fun e => e.metadata.evaluatedAt) h
  exact absurd h2 (by decide)

/-- C6 (amended): every field of the returned `ConfidenceEvaluation` other
than the wall-clock metadata readings `evaluatedAt` and `processingTimeMs`
is determined by the input and the configuration alone: two calls with
identical input and configuration agree on all of them. -/
theorem C6_evaluate_deterministic_up_to_clock
    (cfg : ConfidenceGateConfig) (input : EvaluationInput)
    (t1 t2 : String) (d1 d2 : ℚ) :
    stripClock (evaluate cfg input t1 d1) = stripClock (evaluate cfg input t2 d2) := by
  rfl

/-- C10: an input whose effective level is below the configured minimum makes
`AuditLogger.log` return the empty object (modelled as `none`) with the id
counter unchanged and nothing emitted to the sink, so no id, timestamp or
integrity hash is produced. -/
theorem C10_filtered_level_no_side_effects
    (cfg : AuditLoggerConfig) (hash : AuditLogEntry → String)
    (clock : ClockReading) (rand : String) (logCount : Nat)
    (input : AuditLogEntryInput)
    (h : LOG_LEVEL_PRIORITY (input.level.getD .info) < LOG_LEVEL_PRIORITY cfg.minLevel) :
    AuditLogger.log cfg hash clock rand logCount input = (none, logCount, []) := by
  simp [AuditLogger.log, h]

/-- Witness for C10 at a concrete filtered input: a `debug` entry against a
`warn` minimum level. -/
theorem C10_filtered_level_witness :
    AuditLogger.log { minLevel := .warn } (fun _ => "h") ⟨"iso", 0⟩ "rand" 5
      { action := .llm_request, level := some .debug } = (none, 5, []) :=
  C10_filtered_level_no_side_effects _ _ _ _ _ _ (by decide)

/-! ## Lemmas about the audit-metadata redaction -/

/-- Unfolding equation of `redactObj` on a field. -/
theorem redactObj_cons (fields : List String) (k : String) (v : JsonValue)
    (rest : List (String × JsonValue)) :
    redactObj fields ((k, v) :: rest) =
      (k, if matchesDenylist fields k then .str "[REDACTED]"
          else match v with
            | .obj o => .obj (redactObj fields o)
            | other => other) :: redactObj fields rest := by
  cases v <;> simp [redactObj]

/-- Unfolding equation of `redactObj` on the empty object. -/
theorem redactObj_nil (fields : List String) : redactObj fields [] = [] := by
  simp [redactObj]

/-- Lookup in an object with an explicit head field. -/
theorem objLookup_cons (k1 k : String) (w : JsonValue)
    (rest : List (String × JsonValue)) :
    objLookup ((k1, w) :: rest) k =
      if (k1 == k) = true then some w else objLookup rest k := by
  by_cases hk : (k1 == k) = true
  · simp [objLookup, List.find?_cons, hk]
  · have hf : (k1 == k) = false := by simpa using hk
    simp [objLookup, List.find?_cons, hf, hk]

/-- A denylisted key looked up at the top level of a redacted object always
holds the replacement string. -/
theorem objLookup_redactObj_denylisted (fields : List String)
    (o : List (String × JsonValue)) (k : String) (v : JsonValue)
    (hk : matchesDenylist fields k = true)
    (h : objLookup (redactObj fields o) k = some v) :
    v = .str "[REDACTED]" := by
  induction o with
  | nil => simp [redactObj, objLookup] at h
  | cons kv rest ih =>
    obtain ⟨k1, v1⟩ := kv
    rw [redactObj_cons, objLookup_cons] at h
    by_cases hkk : (k1 == k) = true
    · rw [if_pos hkk] at h
      have hkeq : k1 = k := by simpa using hkk
      subst hkeq
      rw [if_pos hk] at h
      exact (Option.some.inj h).symm
    · rw [if_neg hkk] at h
      exact ih h

/-- Every field value of a redacted object is the replacement string, a
redacted object, or not an object at all (arrays and scalars pass through). -/
theorem objLookup_redactObj_shape (fields : List String)
    (o : List (String × JsonValue)) (k : String) (v : JsonValue)
    (h : objLookup (redactObj fields o) k = some v) :
    v = .str "[REDACTED]" ∨ (∃ o2, v = .obj (redactObj fields o2)) ∨
      (∀ f, v ≠ .obj f) := by
  induction o with
  | nil => simp [redactObj, objLookup] at h
  | cons kv rest ih =>
    obtain ⟨k1, v1⟩ := kv
    rw [redactObj_cons, objLookup_cons] at h
    by_cases hkk : (k1 == k) = true
    · rw [if_pos hkk] at h
      have hv := Option.some.inj h
      by_cases hden : matchesDenylist fields k1 = true
      · rw [if_pos hden] at hv
        exact Or.inl hv.symm
      · rw [if_neg (by simpa using hden)] at hv
        cases v1 with
        | obj o2 => exact Or.inr (Or.inl ⟨o2, hv.symm⟩)
        | str sv => exact Or.inr (Or.inr (by rintro f rfl; cases hv))
        | num q => exact Or.inr (Or.inr (by rintro f rfl; cases hv))
        | bool b => exact Or.inr (Or.inr (by rintro f rfl; cases hv))
        | null => exact Or.inr (Or.inr (by rintro f rfl; cases hv))
        | arr items => exact Or.inr (Or.inr (by rintro f rfl; cases hv))
    · rw [if_neg hkk] at h
      exact ih h

/-- C7: the claim says `AuditLogger.log` redacts every metadata key that
case-insensitively contains a denylist entry at any nesting depth.  This
holds along every path of nested plain objects (first conjunct, proved for
the `redact` helper `log` applies to the metadata), and in particular
logging a metadata object with an `apiKey` field yields `[REDACTED]` for it
(second conjunct).  Keys inside objects nested in arrays are the exception,
recorded by the separate counterexample. -/
theorem C7_log_redacts_denylisted_keys_in_nested_objects :
    (∀ (fields : List String) (o : List (String × JsonValue))
        (path : List String) (k : String) (v : JsonValue),
      matchesDenylist fields k = true →
      lookupPath (.obj (redactObj fields o)) (path ++ [k]) = some v →
      v = .str "[REDACTED]") ∧
    (∀ (hash : AuditLogEntry → String) (clock : ClockReading) (rand : String)
        (logCount : Nat),
      (match (AuditLogger.log {} hash clock rand logCount
          { action := .custom, metadata := some [("apiKey", .str "sk-x")] }).1 with
        | some e => e.metadata
        | none => none) = some [("apiKey", .str "[REDACTED]")]) := by
  constructor
  · intro fields o path k v hk
    induction path generalizing o with
    | nil =>
      intro h
      simp only [List.nil_append, lookupPath] at h
      cases hx : objLookup (redactObj fields o) k with
      | none => rw [hx] at h; cases h
      | some v1 =>
        rw [hx, Option.some_bind] at h
        simp only [lookupPath, Option.some.injEq] at h
        subst h
        exact objLookup_redactObj_denylisted fields o k v1 hk hx
    | cons k1 path ih =>
      intro h
      simp only [List.cons_append, lookupPath] at h
      cases hx : objLookup (redactObj fields o) k1 with
      | none => rw [hx] at h; cases h
      | some v1 =>
        rw [hx, Option.some_bind] at h
        rcases objLookup_redactObj_shape fields o k1 v1 hx with hred | ⟨o2, ho2⟩ | hno
        · subst hred
          cases path <;> simp [lookupPath] at h
        · subst ho2
          exact ih o2 h
        · cases v1 with
          | obj f => exact absurd rfl (hno f)
          | str sv => cases path <;> simp [lookupPath] at h
          | num q => cases path <;> simp [lookupPath] at h
          | bool b => cases path <;> simp [lookupPath] at h
          | null => cases path <;> simp [lookupPath] at h
          | arr items => cases path <;> simp [lookupPath] at h
  · intro hash clock rand logCount
    have hm : matchesDenylist ["apiKey", "password", "secret", "token", "authorization"]
        "apiKey" = true := by decide
    simp [AuditLogger.log, LOG_LEVEL_PRIORITY, redactObj_cons, hm, redactObj_nil]

/-- Witness for C7 at a concrete nested metadata object: the denylist test on
`apiKey` holds and the theorem yields the redacted value two levels deep. -/
theorem C7_log_redacts_witness :
    matchesDenylist ["apiKey", "password", "secret", "token", "authorization"]
      "apiKey" = true ∧
    JsonValue.str "[REDACTED]" = JsonValue.str "[REDACTED]" :=
  ⟨by decide,
    C7_log_redacts_denylisted_keys_in_nested_objects.1
      ["apiKey", "password", "secret", "token", "authorization"]
      [("config", .obj [("apiKey", .str "sk-secret")])]
      ["config"] "apiKey" (.str "[REDACTED]") (by decide) (by
        have hc : matchesDenylist ["apiKey", "password", "secret", "token", "authorization"]
            "config" = false := by decide
        have ha : matchesDenylist ["apiKey", "password", "secret", "token", "authorization"]
            "apiKey" = true := by decide
        simp [redactObj_cons, redactObj_nil, lookupPath, objLookup_cons, hc, ha])⟩

/-- C7 (counterexample): a denylisted key inside an object nested in an
array is at nesting depth two of the metadata object, yet `log` leaves its
value untouched, refuting redaction at any nesting depth. -/
theorem C7_array_nested_key_not_redacted :
    (match (AuditLogger.log {} (fun _ => "h") ⟨"iso", 0⟩ "rand" 0
        { action := .custom,
          metadata := some [("items", .arr [.obj [("apiKey", .str "sk-x")]])] }).1 with
      | some e => e.metadata
      | none => none) =
      some [("items", JsonValue.arr [.obj [("apiKey", .str "sk-x")]])] ∧
    (JsonValue.str "sk-x" = JsonValue.str "[REDACTED]" → False) := by
  have hm : matchesDenylist ["apiKey", "password", "secret", "token", "authorization"]
      "items" = false := by decide
  refine ⟨?_, fun h => ?_⟩
  · simp [AuditLogger.log, LOG_LEVEL_PRIORITY, redactObj_cons, hm, redactObj_nil]
  · injection h with h2
    exact absurd h2 (by decide)

/-! ## Lemmas about the checkBudget stages -/

theorem dayStage_ok_of_nonstrict (cfg : CostGuardConfig) (recs : List UsageRecord)
    (now : ℚ) (inp : BudgetCheckInput) (rem : RemainingBudget)
    (w : List BudgetWarning) (h : cfg.strictMode = false) :
    ∃ r, dayStage cfg recs now inp rem w = .ok r := by
  unfold dayStage
  split
  · next _ _ D uid hD hu =>
      dsimp only
      by_cases hc : D < getUserUsage recs uid (24 * 60 * 60 * 1000) now + inp.estimatedCost
      · rw [if_pos hc, if_neg (by simp [h])]
        exact ⟨_, rfl⟩
      · rw [if_neg hc]
        exact ⟨_, rfl⟩
  · exact ⟨_, rfl⟩

theorem dayStage_ok_of_within (cfg : CostGuardConfig) (recs : List UsageRecord)
    (now : ℚ) (inp : BudgetCheckInput) (rem : RemainingBudget)
    (w : List BudgetWarning)
    (hpass : ∀ D uid, cfg.maxCostPerDay = some D → optTruthyStr inp.userId = some uid →
      getUserUsage recs uid (24 * 60 * 60 * 1000) now + inp.estimatedCost ≤ D) :
    ∃ r, dayStage cfg recs now inp rem w = .ok r ∧ r.warnings = w ∧ r.allowed = true := by
  unfold dayStage
  split
  · next _ _ D uid hD hu =>
      dsimp only
      rw [if_neg (not_lt.mpr (hpass D uid hD hu))]
      exact ⟨_, rfl, rfl, rfl⟩
  · exact ⟨_, rfl, rfl, rfl⟩

theorem sessionStage_inr_of_nonstrict (cfg : CostGuardConfig)
    (recs : List UsageRecord) (inp : BudgetCheckInput) (base : RemainingBudget)
    (out : Except CostGuardError BudgetCheckResult)
    (h : cfg.strictMode = false)
    (hss : sessionStage cfg recs inp base = .inr out) : ∃ r, out = .ok r := by
  unfold sessionStage at hss
  split at hss
  · dsimp only at hss
    split at hss
    · rw [if_neg (by simp [h])] at hss
      injection hss with h2
      exact ⟨_, h2.symm⟩
    · split at hss <;> cases hss
  · cases hss

theorem sessionStage_deny_strict (cfg : CostGuardConfig)
    (recs : List UsageRecord) (inp : BudgetCheckInput) (base : RemainingBudget)
    (S : ℚ) (sid : String)
    (hstrict : cfg.strictMode = true)
    (hS : cfg.maxCostPerSession = some S)
    (hsid : optTruthyStr inp.sessionId = some sid)
    (hover : S < getSessionUsage recs sid + inp.estimatedCost) :
    sessionStage cfg recs inp base = .inr (.error { reason := .perSession }) := by
  unfold sessionStage
  rw [hS, hsid]
  dsimp only
  rw [if_pos hover, if_pos hstrict]

theorem sessionStage_within (cfg : CostGuardConfig)
    (recs : List UsageRecord) (inp : BudgetCheckInput) (base : RemainingBudget)
    (hpass : ∀ S sid, cfg.maxCostPerSession = some S → optTruthyStr inp.sessionId = some sid →
      getSessionUsage recs sid + inp.estimatedCost ≤ S) :
    ∃ rem w, sessionStage cfg recs inp base = .inl (rem, w) := by
  unfold sessionStage
  split
  · next _ _ S sid hS hsid =>
      dsimp only
      rw [if_neg (not_lt.mpr (hpass S sid hS hsid))]
      by_cases hw : S * 0.8 < getSessionUsage recs sid + inp.estimatedCost
      · rw [if_pos hw]
        exact ⟨_, _, rfl⟩
      · rw [if_neg hw]
        exact ⟨_, _, rfl⟩
  · exact ⟨_, _, rfl⟩

theorem sessionStage_warn (cfg : CostGuardConfig)
    (recs : List UsageRecord) (inp : BudgetCheckInput) (base : RemainingBudget)
    (S : ℚ) (sid : String)
    (hS : cfg.maxCostPerSession = some S)
    (hsid : optTruthyStr inp.sessionId = some sid)
    (hw : S * 0.8 < getSessionUsage recs sid + inp.estimatedCost)
    (hle : getSessionUsage recs sid + inp.estimatedCost ≤ S) :
    sessionStage cfg recs inp base =
      .inl ({ base with session := some (S - (getSessionUsage recs sid + inp.estimatedCost)) },
        [.sessionApproaching (getSessionUsage recs sid + inp.estimatedCost) S]) := by
  unfold sessionStage
  rw [hS, hsid]
  dsimp only
  rw [if_neg (not_lt.mpr hle), if_pos hw]

/-- C4 (amended): in strict mode a per-request denial throws a
`BUDGET_EXCEEDED` error carrying `{estimatedCost, limit}` as numeric
details, while session and daily denials throw a `BUDGET_EXCEEDED` error
with no numeric details; in non-strict mode `checkBudget` never throws, and
a per-request denial returns the result object with `allowed := false`. -/
theorem C4_strict_denial_error_shapes :
    (∀ (cfg : CostGuardConfig) (recs : List UsageRecord) (now : ℚ)
        (inp : BudgetCheckInput), cfg.strictMode = false →
      ∃ r, checkBudget cfg recs now inp = .ok r) ∧
    (∀ (cfg : CostGuardConfig) (recs : List UsageRecord) (now : ℚ)
        (inp : BudgetCheckInput), cfg.strictMode = false →
      cfg.maxCostPerRequest < inp.estimatedCost →
      checkBudget cfg recs now inp =
        .ok { allowed := false, reason := some .perRequest,
              estimatedCost := inp.estimatedCost,
              remainingBudget := { request := cfg.maxCostPerRequest - inp.estimatedCost },
              warnings := [] }) ∧
    (∀ (cfg : CostGuardConfig) (recs : List UsageRecord) (now : ℚ)
        (inp : BudgetCheckInput), cfg.strictMode = true →
      cfg.maxCostPerRequest < inp.estimatedCost →
      checkBudget cfg recs now inp =
        .error { reason := .perRequest,
                 details := some { estimatedCost := inp.estimatedCost,
                                   limit := cfg.maxCostPerRequest } }) ∧
    (∀ (cfg : CostGuardConfig) (recs : List UsageRecord) (now : ℚ)
        (inp : BudgetCheckInput) (S : ℚ) (sid : String), cfg.strictMode = true →
      inp.estimatedCost ≤ cfg.maxCostPerRequest →
      cfg.maxCostPerSession = some S →
      optTruthyStr inp.sessionId = some sid →
      S < getSessionUsage recs sid + inp.estimatedCost →
      checkBudget cfg recs now inp = .error { reason := .perSession }) ∧
    (∀ (cfg : CostGuardConfig) (recs : List UsageRecord) (now : ℚ)
        (inp : BudgetCheckInput) (D : ℚ) (uid : String), cfg.strictMode = true →
      inp.estimatedCost ≤ cfg.maxCostPerRequest →
      (∀ S sid, cfg.maxCostPerSession = some S → optTruthyStr inp.sessionId = some sid →
        getSessionUsage recs sid + inp.estimatedCost ≤ S) →
      cfg.maxCostPerDay = some D →
      optTruthyStr inp.userId = some uid →
      D < getUserUsage recs uid (24 * 60 * 60 * 1000) now + inp.estimatedCost →
      checkBudget cfg recs now inp = .error { reason := .perDay }) := by
  refine ⟨?_, ?_, ?_, ?_, ?_⟩
  · intro cfg recs now inp h
    by_cases h1 : cfg.maxCostPerRequest < inp.estimatedCost
    · unfold checkBudget
      rw [if_pos h1, if_neg (by simp [h])]
      exact ⟨_, rfl⟩
    · unfold checkBudget
      rw [if_neg h1]
      rcases hss : sessionStage cfg recs inp
          { request := cfg.maxCostPerRequest - inp.estimatedCost } with ⟨rem, w⟩ | out
      · exact dayStage_ok_of_nonstrict cfg recs now inp rem w h
      · exact sessionStage_inr_of_nonstrict cfg recs inp _ out h hss
  · intro cfg recs now inp h h1
    unfold checkBudget
    rw [if_pos h1, if_neg (by simp [h])]
  · intro cfg recs now inp h h1
    unfold checkBudget
    rw [if_pos h1, if_pos h]
  · intro cfg recs now inp S sid hstrict hreq hS hsid hover
    unfold checkBudget
    rw [if_neg (not_lt.mpr hreq)]
    rw [sessionStage_deny_strict cfg recs inp _ S sid hstrict hS hsid hover]
  · intro cfg recs now inp D uid hstrict hreq hsess hD huid hover
    unfold checkBudget
    rw [if_neg (not_lt.mpr hreq)]
    obtain ⟨rem, w, hss⟩ := sessionStage_within cfg recs inp _ hsess
    rw [hss]
    unfold dayStage
    rw [hD, huid]
    dsimp only
    rw [if_pos hover, if_pos hstrict]

/-- Witness for C4 at the concrete scenario of the source tests: prior
session cost 4.9 against a 5.0 session ceiling with a 0.2 estimate, in
strict mode, throws the session error without numeric details. -/
theorem C4_strict_denial_witness :
    checkBudget { maxCostPerSession := some 5 }
      [{ userId := "u", sessionId := some "s", cost := 4.9, timestamp := 0 }] 0
      { estimatedCost := 0.2, sessionId := some "s" } =
      .error { reason := .perSession } :=
  C4_strict_denial_error_shapes.2.2.2.1 { maxCostPerSession := some 5 }
    [{ userId := "u", sessionId := some "s", cost := 4.9, timestamp := 0 }] 0
    { estimatedCost := 0.2, sessionId := some "s" } 5 "s" rfl (by norm_num) rfl rfl
    (by norm_num [getSessionUsage, List.filter])

/-- C4 (counterexample): the session denial above throws an error whose
`details` field is absent, refuting the claim that every strict-mode denial
carries the estimated cost and the violated ceiling as numeric details. -/
theorem C4_session_denial_has_no_details :
    checkBudget { maxCostPerSession := some 5 }
      [{ userId := "u", sessionId := some "s", cost := 4.9, timestamp := 0 }] 0
      { estimatedCost := 0.2, sessionId := some "s" } =
      .error { reason := .perSession, code := "BUDGET_EXCEEDED", details := none } := by
  unfold checkBudget
  rw [if_neg (by norm_num)]
  rw [sessionStage_deny_strict { maxCostPerSession := some 5 }
    [{ userId := "u", sessionId := some "s", cost := 4.9, timestamp := 0 }]
    { estimatedCost := 0.2, sessionId := some "s" }
    { request := (0.25 : ℚ) - 0.2 } 5 "s" rfl rfl rfl
    (by norm_num [getSessionUsage, List.filter])]

/-- C5 (amended): only the session ceiling emits an approaching-limit
warning, and only on the allowed path: when the per-request check passes,
the projected session usage is above 80 percent of and at most the session
ceiling, and the daily check (when applicable) is within its ceiling, the
result is allowed and carries exactly the session warning. -/
theorem C5_session_warning_when_approaching
    (cfg : CostGuardConfig) (recs : List UsageRecord) (now : ℚ)
    (inp : BudgetCheckInput) (S : ℚ) (sid : String)
    (hreq : inp.estimatedCost ≤ cfg.maxCostPerRequest)
    (hS : cfg.maxCostPerSession = some S)
    (hsid : optTruthyStr inp.sessionId = some sid)
    (hw : S * 0.8 < getSessionUsage recs sid + inp.estimatedCost)
    (hle : getSessionUsage recs sid + inp.estimatedCost ≤ S)
    (hday : ∀ D uid, cfg.maxCostPerDay = some D → optTruthyStr inp.userId = some uid →
      getUserUsage recs uid (24 * 60 * 60 * 1000) now + inp.estimatedCost ≤ D) :
    ∃ r, checkBudget cfg recs now inp = .ok r ∧
      r.warnings = [.sessionApproaching (getSessionUsage recs sid + inp.estimatedCost) S] ∧
      r.allowed = true := by
  unfold checkBudget
  rw [if_neg (not_lt.mpr hreq)]
  rw [sessionStage_warn cfg recs inp _ S sid hS hsid hw hle]
  obtain ⟨r, hr, hwarn, hallow⟩ := dayStage_ok_of_within cfg recs now inp _ _ hday
  exact ⟨r, hr, hwarn, hallow⟩

/-- Witness for C5 at the concrete scenario of the source tests: session
usage 4.0 of a 5.0 ceiling plus a 0.2 estimate is at 84 percent, allowed,
with exactly the session warning. -/
theorem C5_session_warning_witness :
    ∃ r, checkBudget { maxCostPerSession := some 5 }
      [{ userId := "u", sessionId := some "s", cost := 4, timestamp := 0 }] 0
      { estimatedCost := 0.2, sessionId := some "s" } = .ok r ∧
      r.warnings = [BudgetWarning.sessionApproaching
        (getSessionUsage
          [{ userId := "u", sessionId := some "s", cost := 4, timestamp := 0 }] "s"
          + 0.2) 5] ∧
      r.allowed = true :=
  C5_session_warning_when_approaching { maxCostPerSession := some 5 }
    [{ userId := "u", sessionId := some "s", cost := 4, timestamp := 0 }] 0
    { estimatedCost := 0.2, sessionId := some "s" } 5 "s" (by norm_num) rfl rfl
    (by norm_num [getSessionUsage, List.filter])
    (by norm_num [getSessionUsage, List.filter])
    (fun D uid hD huid => by cases huid)

/-- C5 (counterexample): with a configured daily ceiling of 100 and 85
already spent, an estimate of 0.1 projects to 85.1 (85.1 percent of the
ceiling, crossing 80 percent), yet the allowed result carries no warning:
the daily ceiling never emits one. -/
theorem C5_daily_crossing_80_no_warning :
    checkBudget { maxCostPerDay := some 100 }
      [{ userId := "u", cost := 85, timestamp := 0 }] 0
      { estimatedCost := 0.1, userId := some "u" } =
      .ok { allowed := true, estimatedCost := 0.1,
            remainingBudget := { request := 0.15, daily := some 14.9 },
            warnings := [] } ∧
    (100 : ℚ) * 0.8 < 85 + 0.1 := by
  constructor
  · have h2 : getUserUsage [{ userId := "u", cost := 85, timestamp := 0 }] "u"
        (24 * 60 * 60 * 1000) 0 = 85 := by
      norm_num [getUserUsage, List.filter]
    unfold checkBudget
    rw [if_neg (by norm_num)]
    dsimp only
    have hss : sessionStage { maxCostPerDay := some 100 }
        [{ userId := "u", cost := 85, timestamp := 0 }]
        { estimatedCost := 0.1, userId := some "u" }
        { request := (0.25 : ℚ) - 0.1 } = .inl ({ request := (0.25 : ℚ) - 0.1 }, []) := rfl
    rw [hss]
    unfold dayStage
    have hu : optTruthyStr (some "u") = some "u" := rfl
    rw [hu]
    dsimp only
    rw [h2]
    rw [if_neg (by norm_num)]
    norm_num
  · norm_num

/-! ## Lemmas about the detection sorts and the overlap filter -/

theorem sInsert_perm (keep : α → α → Bool) (x : α) (l : List α) :
    (sInsert keep x l).Perm (x :: l) := by
  induction l with
  | nil => exact List.Perm.refl _
  | cons y ys ih =>
    rw [sInsert]
    by_cases hk : keep y x = true
    · rw [if_pos hk]
      exact (ih.cons y).trans (List.Perm.swap x y ys)
    · rw [if_neg hk]

theorem foldl_sInsert_perm (keep : α → α → Bool) :
    ∀ (l acc : List α), (l.foldl (fun a y => sInsert keep y a) acc).Perm (l ++ acc)
  | [], acc => by simp
  | x :: l, acc => by
    have h1 := foldl_sInsert_perm keep l (sInsert keep x acc)
    have h2 : (l ++ sInsert keep x acc).Perm (l ++ x :: acc) :=
      List.Perm.append_left l (sInsert_perm keep x acc)
    simpa using (h1.trans h2).trans List.perm_middle

theorem sSort_perm (keep : α → α → Bool) (l : List α) : (sSort keep l).Perm l := by
  simpa using foldl_sInsert_perm keep l []

theorem sInsert_pairwise {keep : α → α → Bool}
    (htot : ∀ a b, keep a b = true ∨ keep b a = true)
    (htrans : ∀ a b c, keep a b = true → keep b c = true → keep a c = true)
    (x : α) (l : List α) (hl : l.Pairwise (fun a b => keep a b = true)) :
    (sInsert keep x l).Pairwise (fun a b => keep a b = true) := by
  induction l with
  | nil => simp [sInsert]
  | cons y ys ih =>
    rw [sInsert]
    rcases List.pairwise_cons.mp hl with ⟨hy, hys⟩
    by_cases hk : keep y x = true
    · rw [if_pos hk]
      refine List.pairwise_cons.mpr ⟨?_, ih hys⟩
      intro z hz
      rcases List.mem_cons.mp ((sInsert_perm keep x ys).mem_iff.mp hz) with hz1 | hz2
      · subst hz1
        exact hk
      · exact hy z hz2
    · rw [if_neg hk]
      have hxy : keep x y = true := (htot x y).resolve_right (fun hc => hk hc)
      refine List.pairwise_cons.mpr ⟨?_, hl⟩
      intro z hz
      rcases List.mem_cons.mp hz with hz1 | hz2
      · subst hz1
        exact hxy
      · exact htrans x y z hxy (hy z hz2)

theorem sSort_pairwise {keep : α → α → Bool}
    (htot : ∀ a b, keep a b = true ∨ keep b a = true)
    (htrans : ∀ a b c, keep a b = true → keep b c = true → keep a c = true)
    (l : List α) : (sSort keep l).Pairwise (fun a b => keep a b = true) := by
  suffices h : ∀ (l acc : List α), acc.Pairwise (fun a b => keep a b = true) →
      (l.foldl (fun a y => sInsert keep y a) acc).Pairwise (fun a b => keep a b = true) by
    exact h l [] List.Pairwise.nil
  intro l
  induction l with
  | nil => intro acc h; exact h
  | cons x xs ih =>
    intro acc h
    exact ih (sInsert keep x acc) (sInsert_pairwise htot htrans x acc h)

theorem overlapsB_comm (a b : PIIDetection) : overlapsB a b = overlapsB b a := by
  unfold overlapsB
  exact Bool.and_comm _ _

theorem overlapGo_pairwise :
    ∀ (rest acc : List PIIDetection),
      acc.Pairwise (fun a b => overlapsB a b = false) →
      (overlapGo acc rest).Pairwise (fun a b => overlapsB a b = false)
  | [], acc, h => h
  | d :: rest, acc, h => by
    rw [overlapGo]
    by_cases ha : acc.any (fun f => overlapsB d f) = true
    · rw [if_pos ha]
      exact overlapGo_pairwise rest acc h
    · rw [if_neg ha]
      have ha2 : ∀ f ∈ acc, overlapsB d f = false := by
        intro f hf
        by_contra hc
        exact ha (List.any_eq_true.mpr ⟨f, hf, by simpa using hc⟩)
      refine overlapGo_pairwise rest (acc ++ [d]) ?_
      rw [List.pairwise_append]
      refine ⟨h, List.pairwise_singleton _ _, ?_⟩
      intro a haa b hb
      rcases List.mem_singleton.mp hb with rfl
      rw [overlapsB_comm]
      exact ha2 a haa

theorem overlapGo_subset :
    ∀ (rest acc : List PIIDetection) (x : PIIDetection),
      x ∈ overlapGo acc rest → x ∈ acc ∨ x ∈ rest
  | [], acc, x, h => Or.inl h
  | d :: rest, acc, x, h => by
    rw [overlapGo] at h
    by_cases ha : acc.any (fun f => overlapsB d f) = true
    · rw [if_pos ha] at h
      rcases overlapGo_subset rest acc x h with h1 | h2
      · exact Or.inl h1
      · exact Or.inr (List.mem_cons_of_mem d h2)
    · rw [if_neg ha] at h
      rcases overlapGo_subset rest (acc ++ [d]) x h with h1 | h2
      · rcases List.mem_append.mp h1 with h3 | h4
        · exact Or.inl h3
        · exact Or.inr (List.mem_cons.mpr (Or.inl (List.mem_singleton.mp h4)))
      · exact Or.inr (List.mem_cons_of_mem d h2)

/-- The output detection list of `process`, written through its pipeline. -/
theorem process_detections_eq (cfg : PIIDetectorConfig) (t : List Char) :
    (process cfg t).detections =
      sortAsc (overlapFilter (sortDesc (rawDetections cfg t))) := rfl

/-- C2: for every configuration and input text, the detections returned by
`process` are pairwise disjoint as `[start, end)` ranges and sorted
ascending by start offset. -/
theorem C2_detections_disjoint_and_sorted (cfg : PIIDetectorConfig) (t : List Char) :
    ((process cfg t).detections).Pairwise
      (fun a b => a.endIndex ≤ b.startIndex ∨ b.endIndex ≤ a.startIndex) ∧
    ((process cfg t).detections).Pairwise
      (fun a b => a.startIndex ≤ b.startIndex) := by
  rw [process_detections_eq]
  constructor
  · have h1 : (overlapFilter (sortDesc (rawDetections cfg t))).Pairwise
        (fun a b => overlapsB a b = false) :=
      overlapGo_pairwise _ [] List.Pairwise.nil
    have h2 := ((sSort_perm (fun y x : PIIDetection => decide (y.startIndex ≤ x.startIndex))
        (overlapFilter (sortDesc (rawDetections cfg t)))).pairwise_iff
      (fun hab => by rw [overlapsB_comm]; exact hab)).mpr h1
    refine h2.imp ?_
    intro a b hab
    simp only [overlapsB, Bool.and_eq_false_iff, decide_eq_false_iff_not, not_lt] at hab
    omega
  · have h3 := @sSort_pairwise PIIDetection
      (fun y x : PIIDetection => decide (y.startIndex ≤ x.startIndex)) ?_ ?_
      (overlapFilter (sortDesc (rawDetections cfg t)))
    · refine h3.imp ?_
      intro a b hab
      simpa using hab
    · intro a b
      rcases Nat.le_total a.startIndex b.startIndex with h | h
      · exact Or.inl (by simpa using h)
      · exact Or.inr (by simpa using h)
    · intro a b c hab hbc
      simp only [decide_eq_true_eq] at hab hbc ⊢
      omega

/-! ## Lemmas tracing a returned detection back to its pattern -/

theorem mem_rawDetections_of_mem_process (cfg : PIIDetectorConfig) (t : List Char)
    (d : PIIDetection) (h : d ∈ (process cfg t).detections) :
    d ∈ rawDetections cfg t := by
  rw [process_detections_eq] at h
  have h1 : d ∈ overlapFilter (sortDesc (rawDetections cfg t)) :=
    (sSort_perm (fun y x : PIIDetection => decide (y.startIndex ≤ x.startIndex)) _).mem_iff.mp h
  rcases overlapGo_subset _ [] d h1 with h2 | h3
  · cases h2
  · exact (sSort_perm (fun y x : PIIDetection => decide (x.startIndex ≤ y.startIndex)) _).mem_iff.mp h3

theorem activePatterns_subset (cfg : PIIDetectorConfig) (pat : PIIPattern)
    (h : pat ∈ activePatterns cfg) : pat ∈ PII_PATTERNS := by
  unfold activePatterns at h
  rcases he : cfg.enabledTypes with _ | e <;> rw [he] at h <;>
    rcases hd : cfg.disabledTypes with _ | dl <;> rw [hd] at h <;> dsimp only at h
  · exact h
  · exact (List.mem_filter.mp h).1
  · exact (List.mem_filter.mp h).1
  · exact (List.mem_filter.mp (List.mem_filter.mp h).1).1

/-- Every detection of type `ssn` that `process` returns, under any
configuration, has a value accepted by the structural SSN validator: the
only rule of that type is `ssn_dashed`, whose `validate` must have passed
for the detection to be kept. -/
theorem ssn_detection_validated (cfg : PIIDetectorConfig) (t : List Char)
    (d : PIIDetection) (hd : d ∈ (process cfg t).detections)
    (hssn : d.type = .ssn) : ssnValidate d.value = true := by
  have hraw := mem_rawDetections_of_mem_process cfg t d hd
  unfold rawDetections at hraw
  rw [List.mem_flatMap] at hraw
  obtain ⟨pat, hpat, hmem⟩ := hraw
  rw [List.mem_filterMap] at hmem
  obtain ⟨sp, hsp, hg⟩ := hmem
  dsimp only at hg
  have hp5 := activePatterns_subset cfg pat hpat
  simp only [PII_PATTERNS, List.mem_cons, List.not_mem_nil, or_false] at hp5
  by_cases hok : (match pat.validate with
      | some v => v ((t.drop sp.1).take sp.2)
      | none => true) = true
  · rw [hok] at hg
    simp only [Bool.not_true] at hg
    rw [if_neg (by simp)] at hg
    by_cases hconf : pat.confidence < cfg.confidenceThreshold
    · rw [if_pos hconf] at hg
      cases hg
    · rw [if_neg hconf] at hg
      have hd2 := Option.some.inj hg
      subst hd2
      dsimp only at hssn ⊢
      rcases hp5 with rfl | rfl | rfl | rfl | rfl
      · dsimp only at hok ⊢
        exact hok
      · simp at hssn
      · simp at hssn
      · simp at hssn
      · simp at hssn
  · have hok2 : (match pat.validate with
        | some v => v ((t.drop sp.1).take sp.2)
        | none => true) = false := by simpa using hok
    rw [hok2] at hg
    simp at hg

/-- C9: the default detector detects the SSN `123-45-6789` (masking it to
`XXX-XX-6789`), never detects `000-00-0000` or `666-12-3456`, and in
general any detection it reports as an SSN satisfies the structural rules
of `ssn_dashed.validate`: area code not 000, not 666 and below 900, group
not 00, serial not 0000. -/
theorem C9_ssn_detection_and_structural_rules :
    (processStr .mask "123-45-6789").text = "XXX-XX-6789".data ∧
    (processStr .detect "123-45-6789").detections.map (fun d => d.type) = [.ssn] ∧
    (processStr .detect "000-00-0000").hasPII = false ∧
    (processStr .detect "666-12-3456").hasPII = false ∧
    (∀ (cfg : PIIDetectorConfig) (t : List Char) (d : PIIDetection),
      d ∈ (process cfg t).detections → d.type = .ssn →
      ssnValidate d.value = true) := by
  refine ⟨?_, ?_, ?_, ?_, ssn_detection_validated⟩ <;> with_unfolding_all rfl

/-- Witness for C9 at the concrete SSN `123-45-6789`: it is among the
detections of the default detector, and the theorem yields that its value
passes the structural validator. -/
theorem C9_ssn_witness : ssnValidate "123-45-6789".data = true := by
  have hmem : (⟨.ssn, "123-45-6789".data, "123-45-6789".data, 0, 11, 0.95,
      "ssn_dashed"⟩ : PIIDetection) ∈
      (process { mode := .detect } "123-45-6789".data).detections := by
    with_unfolding_all decide
  exact C9_ssn_detection_and_structural_rules.2.2.2.2
    { mode := .detect } "123-45-6789".data _ hmem rfl

/-- C3: the claim (and the spec) require redaction to be idempotent, but
the overlap-resolution step makes it fail: in
`a@123-45-6789.xy@d.co` the email match `a@123-45-6789.xy` (spanning the
whole domain) overlaps the SSN match `123-45-6789`; the SSN match, having
the higher start offset, is kept and the email match is dropped entirely.
Redacting yields `a@[SSN].xy@d.co`, in which a second redact pass finds the
email `xy@d.co` (the replacement created a fresh word boundary before
`xy`), so `hasPII` is true after re-processing redacted output. -/
theorem C3_redaction_not_idempotent :
    (processStr .redact "a@123-45-6789.xy@d.co").text = "a@[SSN].xy@d.co".data ∧
    (processStr .redact (String.mk (processStr .redact "a@123-45-6789.xy@d.co").text)).hasPII
      = true ∧
    (processStr .redact "a@[SSN].xy@d.co").detections.map
      (fun d => (d.patternName, d.value)) = [("email", "xy@d.co".data)] := by
  refine ⟨?_, ?_, ?_⟩ <;> with_unfolding_all rfl

/-! ## Lemmas for the credit-card pattern on all-digit inputs -/

theorem chIs_true_of_all (t : List Char) (P : Char → Bool) (i : Nat)
    (hi : i < t.length) (hall : ∀ c ∈ t, P c = true) : chIs t i P = true := by
  rw [chIs, List.get?_eq_get hi]
  exact hall _ (t.get_mem _ _)

theorem chIs_false_of_all (t : List Char) (P : Char → Bool) (i : Nat)
    (hall : ∀ c ∈ t, P c = false) : chIs t i P = false := by
  rw [chIs]
  cases hg : t.get? i with
  | none => rfl
  | some c => exact hall c (List.get?_mem hg)

theorem chIs_false_of_ge (t : List Char) (P : Char → Bool) (i : Nat)
    (hi : t.length ≤ i) : chIs t i P = false := by
  rw [chIs, List.get?_eq_none.mpr hi]

theorem allDigits_of_all (t : List Char) (hall : ∀ c ∈ t, c.isDigit = true) :
    ∀ (n i : Nat), i + n ≤ t.length → allDigits t i n = true
  | 0, i, _ => rfl
  | n + 1, i, h => by
    rw [allDigits, chIs_true_of_all t _ i (by omega) hall,
      allDigits_of_all t hall n (i + 1) (by omega)]
    rfl

theorem isWordChar_of_digit (c : Char) (h : c.isDigit = true) : isWordChar c = true := by
  simp [isWordChar, h]

theorem isCardSep_false_of_digit (c : Char) (h : c.isDigit = true) :
    isCardSep c = false := by
  by_contra hc
  have ht : isCardSep c = true := by simpa using hc
  simp only [isCardSep, isSpaceJS, Bool.or_eq_true, decide_eq_true_eq] at ht
  rcases ht with rfl | (((((rfl | rfl) | rfl) | rfl) | rfl) | rfl) <;>
    exact absurd h (by decide)

/-- On a text of exactly 16 digit characters, the credit-card regex matches
the whole text at position 0: the word boundaries hold at both ends, the
four digit groups are present and no separator is consumed. -/
theorem cardMatchAt_digits16 (t : List Char) (hlen : t.length = 16)
    (hall : ∀ c ∈ t, c.isDigit = true) : cardMatchAt t 0 = some 16 := by
  have hW : ∀ c ∈ t, isWordChar c = true := fun c hc => isWordChar_of_digit c (hall c hc)
  have hS : ∀ c ∈ t, isCardSep c = false := fun c hc => isCardSep_false_of_digit c (hall c hc)
  have hb0 : boundaryAt t 0 = true := by
    rw [boundaryAt, if_pos rfl, wordAt]
    exact chIs_true_of_all t _ 0 (by omega) hW
  have hb16 : boundaryAt t 16 = true := by
    rw [boundaryAt, if_neg (by omega), wordAt, wordAt,
      chIs_false_of_ge t _ 16 (by omega), chIs_true_of_all t _ 15 (by omega) hW]
    rfl
  simp [cardMatchAt, hb0, hb16, hS,
    allDigits_of_all t hall 4 0 (by omega), allDigits_of_all t hall 4 4 (by omega),
    allDigits_of_all t hall 4 8 (by omega), allDigits_of_all t hall 4 12 (by omega),
    chIs_false_of_all t isCardSep 4 hS, chIs_false_of_all t isCardSep 8 hS,
    chIs_false_of_all t isCardSep 12 hS]

theorem execScanGo_step (m : List Char → Nat → Option Nat) (t : List Char)
    (p fuel len : Nat) (hp : p < t.length) (hm : m t p = some len) :
    execScanGo m t p (fuel + 1) = (p, len) :: execScanGo m t (p + max len 1) fuel := by
  rw [execScanGo, if_neg (not_le.mpr hp), hm]

theorem execScanGo_stop (m : List Char → Nat → Option Nat) (t : List Char)
    (p : Nat) (h : t.length ≤ p) : ∀ fuel, execScanGo m t p fuel = []
  | 0 => rfl
  | fuel + 1 => by rw [execScanGo, if_pos h]

/-- The `exec` loop of the credit-card regex on a 16-digit text finds
exactly the whole-text match. -/
theorem execScan_card_digits16 (t : List Char) (hlen : t.length = 16)
    (hall : ∀ c ∈ t, c.isDigit = true) :
    execScan cardMatchAt t = [(0, 16)] := by
  rw [execScan, hlen,
    execScanGo_step cardMatchAt t 0 16 16 (by omega) (cardMatchAt_digits16 t hlen hall)]
  rw [show (0 + max 16 1 : Nat) = 16 from rfl]
  rw [execScanGo_stop cardMatchAt t 16 (le_of_eq hlen) 16]

/-- With only the credit-card rule enabled, a 16-digit text failing the
Luhn checksum produces no raw detection: the single regex match is
discarded by `validate`. -/
theorem rawDetections_card16_luhn_fail (m : PIIMode) (t : List Char)
    (hlen : t.length = 16) (hall : ∀ c ∈ t, c.isDigit = true)
    (hluhn : luhnCheck t = false) :
    rawDetections { mode := m, enabledTypes := some [.credit_card] } t = [] := by
  have hact : activePatterns { mode := m, enabledTypes := some [.credit_card] } =
      [{ name := "credit_card_spaced", type := .credit_card, matchAt := cardMatchAt,
         confidence := 0.95, validate := some cardValidate, mask := some cardMask }] := rfl
  have hval : List.take 16 t = t := by
    rw [← hlen, List.take_length]
  unfold rawDetections
  rw [hact]
  simp only [List.flatMap_cons, List.flatMap_nil, List.append_nil]
  rw [execScan_card_digits16 t hlen hall]
  simp [hval, cardValidate, hluhn]

/-- C8: with the credit-card pattern enabled the detector reports no
detection for any 16-digit sequence failing the Luhn checksum (in any
processing mode), and for the Luhn-valid `4532015112830366` it reports
exactly one detection whose masked value is `****-****-****-0366`. -/
theorem C8_luhn_gate_and_mask :
    (∀ (m : PIIMode) (ds : List Char), ds.length = 16 →
      (∀ c ∈ ds, c.isDigit = true) → luhnCheck ds = false →
      (process { mode := m, enabledTypes := some [.credit_card] } ds).detections = []) ∧
    (process { mode := .mask, enabledTypes := some [.credit_card] }
      "4532015112830366".data).detections.map
        (fun d => d.redactedValue) = ["****-****-****-0366".data] ∧
    luhnCheck "4532015112830366".data = true := by
  refine ⟨?_, ?_, ?_⟩
  · intro m ds hlen hall hluhn
    rw [process_detections_eq, rawDetections_card16_luhn_fail m ds hlen hall hluhn]
    rfl
  · with_unfolding_all rfl
  · with_unfolding_all rfl

/-- Witness for C8 at the concrete Luhn-failing sequence of sixteen ones. -/
theorem C8_luhn_gate_witness :
    "1111111111111111".data.length = 16 ∧
    (∀ c ∈ "1111111111111111".data, c.isDigit = true) ∧
    luhnCheck "1111111111111111".data = false ∧
    (process { mode := .detect, enabledTypes := some [.credit_card] }
      "1111111111111111".data).detections = [] :=
  ⟨by decide, by decide, by decide,
    C8_luhn_gate_and_mask.1 .detect "1111111111111111".data
      (by decide) (by decide) (by decide)⟩

end Gov
